import Mathlib

/-!
Shallow embedding of the SimpleHX711 Arduino library
(src/SimpleHX711.h, src/SimpleHX711.cpp).

The library drives an HX711 24-bit ADC over two GPIO lines with a
non-blocking polling model.  We model the member state of the C++ class
`SimpleHX711` as a Lean structure, and each public member function as a
pure state transformer.  The external world (GPIO line levels sampled by
`digitalRead`, the `millis()` clock) is passed in explicitly as a
`PollEnv` per call to `read`.

Machine-integer conventions:
* `int32_t` values are modelled as `Int` together with `wrap32`, which
  reduces into the interval `[-2^31, 2^31)` (two's-complement wrap).
* `uint32_t` values (`millis()` timestamps) are modelled as `Nat`
  reduced by `u32` (mod `2^32`); the C expression
  `millis() - _conversionStartTime` on `uint32_t` becomes
  `(u32 now + 2^32 - u32 start) % 2^32`.
* `uint8_t` values are `Nat` reduced mod 256 where the code can wrap.
* C integer division truncates toward zero, which is `Int.tdiv`.

The 24-bit acquisition loop in `SimpleHX711::read` writes through
`reinterpret_cast<uint8_t*>(&_raw)[j]` for `j = 3, 2, 1` on a
little-endian AVR target: byte `j` of the 32-bit raw value is the bits
`[8*j, 8*j+8)`.  Each byte is rebuilt by eight shift-and-add steps with
`uint8_t` truncation; byte 0 is never written.  `bangRaw` models this
byte-aliasing loop exactly.
-/

/-- Reduce a `Nat` modulo `2^32`, the behaviour of a `uint32_t` store. -/
def u32 (n : Nat) : Nat := n % 4294967296

/-- Two's-complement wrap of an `Int` into the `int32_t` range
`[-2^31, 2^31)`. -/
def wrap32 (x : Int) : Int := (x + 2147483648) % 4294967296 - 2147483648

/-- Byte `j` (little-endian) of the 32-bit unsigned pattern `n`:
`reinterpret_cast<uint8_t*>(&_raw)[j]`. -/
def byteOf (n j : Nat) : Nat := n / 256 ^ j % 256

/-- Store `b` into byte `j` (little-endian) of the pattern `n`. -/
def setByte (n j b : Nat) : Nat := n - byteOf n j * 256 ^ j + b * 256 ^ j

/-- One byte of the acquisition loop: for each sampled data-line bit,
`byte = (byte << 1) + bit` with `uint8_t` truncation. -/
def shiftInByte (byte : Nat) (bs : List Bool) : Nat :=
  bs.foldl (fun a b => (a * 2 + (if b then 1 else 0)) % 256) byte

/-- The eight data-line samples fed into one byte of the loop, taken
from the per-call sample oracle `f` starting at index `start`. -/
def sampleBits (f : Nat → Bool) (start : Nat) : List Bool :=
  (List.range 8).map fun i => f (start + i)

/-- The full 24-pulse acquisition loop of `SimpleHX711::read`
(lines 81-89 of SimpleHX711.cpp): bytes 3, 2, 1 of `_raw` are rebuilt
from the 24 data-line samples (MSB first); byte 0 is left untouched. -/
def bangRaw (raw : Int) (f : Nat → Bool) : Int :=
  let u0 := (raw % 4294967296).toNat
  let u1 := setByte u0 3 (shiftInByte (byteOf u0 3) (sampleBits f 0))
  let u2 := setByte u1 2 (shiftInByte (byteOf u1 2) (sampleBits f 8))
  let u3 := setByte u2 1 (shiftInByte (byteOf u2 1) (sampleBits f 16))
  wrap32 (u3 : Int)

/-- The exponential smoothing step of `SimpleHX711::read` (line 142):
`_smoothedRaw += (_raw - _smoothedRaw) / 256 * _alpha;` in `int32_t`
arithmetic, with truncating division before the multiplication. -/
def smoothUpdate (smoothed raw : Int) (alpha : Nat) : Int :=
  wrap32 (smoothed + Int.tdiv (wrap32 (raw - smoothed)) 256 * (alpha : Int))

/-- The gain / channel selection of the HX711, `enum gain`. -/
inductive Gain
  | gain32
  | gain64
  | gain128
deriving DecidableEq

/-- The status of the last read, `enum status`. -/
inductive Status
  | init
  | valid
  | poweredDown
  | timedOut
deriving DecidableEq

/-- The member state of the C++ class `SimpleHX711`. -/
structure SimpleHX711 where
  _pinClk : Nat
  _pinData : Nat
  _gain : Gain
  _tare : Int
  _alpha : Nat
  _timestamp : Nat
  _raw : Int
  _smoothedRaw : Int
  _adjuster : Int
  _conversionStartTime : Nat
  _status : Status
  _readCount : Nat
  _readsUntilValid : Nat
deriving DecidableEq

/-- The external world observed during one call to `SimpleHX711::read`:
the clock-line level at the power-down check, the data-line level at the
busy check, the 24 data-line samples of the acquisition loop (indexed in
sample order), and the value `millis()` would return during this call. -/
structure PollEnv where
  clkHigh : Bool
  dataHigh : Bool
  bits : Nat → Bool
  now : Nat

namespace SimpleHX711

/-- The constructor `SimpleHX711::SimpleHX711(pinClk, pinData,
readsUntilValid, gain)`; `millis0` is the value `millis()` returns
during construction. -/
def make (pinClk pinData readsUntilValid : Nat) (g : Gain) (millis0 : Nat) :
    SimpleHX711 :=
  { _pinClk := pinClk
    _pinData := pinData
    _gain := g
    _tare := 0
    _raw := 0
    _smoothedRaw := 0
    _alpha := 200
    _adjuster := 256
    _conversionStartTime := u32 millis0
    _readCount := 0
    _status := Status.init
    _readsUntilValid := readsUntilValid % 256
    _timestamp := 0 }

/-- Member function `SimpleHX711::read()`.  Returns the `bool` result paired with the
post-state.  The gain-dependent extra clock pulses only toggle the clock
line and change no member state, so they have no footprint here. -/
def read (s : SimpleHX711) (e : PollEnv) : Bool × SimpleHX711 :=
  if e.clkHigh then
    (true, { s with _status := Status.poweredDown })
  else if e.dataHigh then
    if 500 ≤ (u32 e.now + 4294967296 - u32 s._conversionStartTime) % 4294967296 then
      (true, { s with _status := Status.timedOut })
    else
      (false, s)
  else
    let s1 := if s._status = Status.timedOut then
        { s with _status := Status.init, _readCount := 0 }
      else s
    let s2 := { s1 with _timestamp := s1._conversionStartTime }
    let s3 := { s2 with _raw := bangRaw s2._raw e.bits }
    let s4 := { s3 with _conversionStartTime := u32 e.now }
    if s4._readCount < s4._readsUntilValid then
      let s5 := { s4 with _readCount := (s4._readCount + 1) % 256 }
      if s5._readCount < s5._readsUntilValid then
        (false, s5)
      else
        (true, { s5 with _smoothedRaw := s5._raw, _status := Status.valid })
    else
      (true, { s4 with
               _smoothedRaw := smoothUpdate s4._smoothedRaw s4._raw s4._alpha,
               _status := Status.valid })

/-- Member function `SimpleHX711::getStatus()`. -/
def getStatus (s : SimpleHX711) : Status := s._status

/-- Member function `SimpleHX711::setGain(gain)`. -/
def setGain (s : SimpleHX711) (g : Gain) : SimpleHX711 :=
  { s with _gain := g, _status := Status.init, _readCount := 0 }

/-- Member function `SimpleHX711::getGain()`. -/
def getGain (s : SimpleHX711) : Gain := s._gain

/-- Member function `SimpleHX711::setAlpha(uint8_t)`. -/
def setAlpha (s : SimpleHX711) (alpha : Nat) : SimpleHX711 :=
  { s with _alpha := alpha % 256 }

/-- Member function `SimpleHX711::getAlpha()`. -/
def getAlpha (s : SimpleHX711) : Nat := s._alpha

/-- Member function `SimpleHX711::getTimestamp()`. -/
def getTimestamp (s : SimpleHX711) : Nat := s._timestamp

/-- Member function `SimpleHX711::getRaw(bool)`. -/
def getRaw (s : SimpleHX711) (smoothed : Bool) : Int :=
  if smoothed then s._smoothedRaw else s._raw

/-- Member function `SimpleHX711::tare(bool)`. -/
def tare (s : SimpleHX711) (smoothed : Bool) : SimpleHX711 :=
  { s with _tare := if smoothed then s._smoothedRaw else s._raw }

/-- Member function `SimpleHX711::setTare(int32_t)`. -/
def setTare (s : SimpleHX711) (t : Int) : SimpleHX711 :=
  { s with _tare := wrap32 t }

/-- Member function `SimpleHX711::getTare()`. -/
def getTare (s : SimpleHX711) : Int := s._tare

/-- Member function `SimpleHX711::getRawMinusTare(bool)`: `int32_t` subtraction. -/
def getRawMinusTare (s : SimpleHX711) (smoothed : Bool) : Int :=
  wrap32 ((if smoothed then s._smoothedRaw else s._raw) - s._tare)

/-- Member function `SimpleHX711::adjustTo(int32_t, bool)`: a zero target is coerced
to 1, then the adjuster is the tared reading divided (truncating) by the
target. -/
def adjustTo (s : SimpleHX711) (value : Int) (smoothed : Bool) : SimpleHX711 :=
  { s with _adjuster :=
      wrap32 (Int.tdiv (wrap32 ((if smoothed then s._smoothedRaw else s._raw) - s._tare))
        (if value = 0 then 1 else value)) }

/-- Member function `SimpleHX711::getAdjuster()`. -/
def getAdjuster (s : SimpleHX711) : Int := s._adjuster

/-- Member function `SimpleHX711::setAdjuster(int32_t)`. -/
def setAdjuster (s : SimpleHX711) (a : Int) : SimpleHX711 :=
  { s with _adjuster := wrap32 a }

/-- Member function `SimpleHX711::getAdjusted(bool)`: unguarded truncating division of
the tared reading by the adjuster. -/
def getAdjusted (s : SimpleHX711) (smoothed : Bool) : Int :=
  wrap32 (Int.tdiv (wrap32 ((if smoothed then s._smoothedRaw else s._raw) - s._tare))
    s._adjuster)

/-- Member function `SimpleHX711::powerDown()`: only drives the clock line high; no
member state changes. -/
def powerDown (s : SimpleHX711) : SimpleHX711 := s

/-- Member function `SimpleHX711::powerUp()`; `now` is the value `millis()` returns
during the call. -/
def powerUp (s : SimpleHX711) (now : Nat) : SimpleHX711 :=
  { s with _status := Status.init, _readCount := 0, _conversionStartTime := u32 now }

/-- Member function `SimpleHX711::setReadsUntilValid(uint8_t)`. -/
def setReadsUntilValid (s : SimpleHX711) (n : Nat) : SimpleHX711 :=
  { s with _readsUntilValid := n % 256 }

/-- Member function `SimpleHX711::getReadsUntilValid()`. -/
def getReadsUntilValid (s : SimpleHX711) : Nat := s._readsUntilValid

/-- Fold a sequence of polls, keeping only the post-states. -/
def readMany (s : SimpleHX711) (es : List PollEnv) : SimpleHX711 :=
  es.foldl (fun t e => (read t e).2) s

end SimpleHX711

/-- One public operation of the class, for reachability statements.
Getters are omitted: they do not change the state. -/
inductive Op
  | read (e : PollEnv)
  | setGain (g : Gain)
  | setAlpha (a : Nat)
  | tare (smoothed : Bool)
  | setTare (t : Int)
  | adjustTo (value : Int) (smoothed : Bool)
  | setAdjuster (a : Int)
  | powerDown
  | powerUp (now : Nat)
  | setReadsUntilValid (n : Nat)

/-- Interpret one public operation on the member state. -/
def applyOp (s : SimpleHX711) : Op → SimpleHX711
  | Op.read e => (SimpleHX711.read s e).2
  | Op.setGain g => SimpleHX711.setGain s g
  | Op.setAlpha a => SimpleHX711.setAlpha s a
  | Op.tare sm => SimpleHX711.tare s sm
  | Op.setTare t => SimpleHX711.setTare s t
  | Op.adjustTo v sm => SimpleHX711.adjustTo s v sm
  | Op.setAdjuster a => SimpleHX711.setAdjuster s a
  | Op.powerDown => SimpleHX711.powerDown s
  | Op.powerUp now => SimpleHX711.powerUp s now
  | Op.setReadsUntilValid n => SimpleHX711.setReadsUntilValid s n

/-- Run a sequence of public operations from a state. -/
def runOps (s : SimpleHX711) (ops : List Op) : SimpleHX711 :=
  ops.foldl applyOp s

/-- Does the operation call `setReadsUntilValid`? -/
def Op.changesThreshold : Op → Bool
  | Op.setReadsUntilValid _ => true
  | _ => false

/-- A poll environment where both lines read deasserted (chip ready) and
all data samples are low. -/
def eReady : PollEnv :=
  { clkHigh := false, dataHigh := false, bits := fun _ => false, now := 0 }

/-- A poll environment where the data line reads asserted (chip busy)
600 ms into the conversion. -/
def eBusyLate : PollEnv :=
  { clkHigh := false, dataHigh := true, bits := fun _ => false, now := 600 }

/-- A poll environment where the clock line reads asserted (chip powered
down). -/
def eClkHigh : PollEnv :=
  { clkHigh := true, dataHigh := false, bits := fun _ => false, now := 0 }

open SimpleHX711

/-! ### Helper lemmas -/

/-- Lemma: `wrap32` is idempotent: wrapping an already wrapped value changes
nothing. -/
theorem wrap32_wrap32 (x : Int) : wrap32 (wrap32 x) = wrap32 x := by
  unfold wrap32
  omega

/-! ### Claims -/

/-- Claim C4: for every state, if the clock line reads asserted at the
start of a call to poll, the call returns true with Status set to
PoweredDown and every other member (raw, smoothed, timestamp, settling
counter, tare, adjuster, alpha, gain, conversion-start time) is
unchanged from before the call. -/
theorem read_poweredDown_frame (s : SimpleHX711) (e : PollEnv)
    (h : e.clkHigh = true) :
    read s e = (true, { s with _status := Status.poweredDown }) := by
  simp [SimpleHX711.read, h]

/-- Witness for C4 at a concrete state and environment. -/
theorem read_poweredDown_frame_witness :
    read (make 1 2 3 Gain.gain128 0) eClkHigh
      = (true, { make 1 2 3 Gain.gain128 0 with _status := Status.poweredDown }) :=
  read_poweredDown_frame (make 1 2 3 Gain.gain128 0) eClkHigh rfl

/-- Claim C9: after construction, before any other operation, the
calibration state is tare = 0, alpha = 200, adjuster = 256, raw = 0,
smoothed = 0, timestamp = 0; in particular `getAdjusted(false)` called
before any calibration divides the tared raw reading by 256 (the
default adjuster), not by 1. -/
theorem constructor_defaults (pinClk pinData readsUntilValid : Nat)
    (g : Gain) (millis0 : Nat) :
    (make pinClk pinData readsUntilValid g millis0)._tare = 0 ∧
    (make pinClk pinData readsUntilValid g millis0)._alpha = 200 ∧
    (make pinClk pinData readsUntilValid g millis0)._adjuster = 256 ∧
    (make pinClk pinData readsUntilValid g millis0)._raw = 0 ∧
    (make pinClk pinData readsUntilValid g millis0)._smoothedRaw = 0 ∧
    (make pinClk pinData readsUntilValid g millis0)._timestamp = 0 ∧
    getAdjusted (make pinClk pinData readsUntilValid g millis0) false
      = wrap32 (Int.tdiv
          (getRawMinusTare (make pinClk pinData readsUntilValid g millis0) false) 256) := by
  refine ⟨rfl, rfl, rfl, rfl, rfl, rfl, ?_⟩
  simp [getAdjusted, getRawMinusTare, make, wrap32]

/-- Claim C7: `adjustTo` coerces a zero target value to 1 before the
division, so `adjustTo(0, false)` is division-safe and results in
`adjuster = (raw - tare)`; for any target, the adjuster becomes the
tared reading (raw or smoothed per the flag) divided truncating by the
coerced target. -/
theorem adjustTo_zero_target (s : SimpleHX711) (value : Int) (smoothed : Bool) :
    (adjustTo s value smoothed)._adjuster
      = wrap32 (Int.tdiv (getRawMinusTare s smoothed)
          (if value = 0 then 1 else value)) ∧
    (adjustTo s 0 false)._adjuster = getRawMinusTare s false := by
  constructor
  · simp [adjustTo, getRawMinusTare]
  · simp [adjustTo, getRawMinusTare, Int.tdiv_one, wrap32_wrap32]

/-- Claim C8: `getAdjusted(smoothed)` performs an unguarded truncating
division: whenever the adjuster is non-zero, it returns
`(reading - tare) / adjuster` with reading chosen raw or smoothed per
the flag; there is no special case for a zero adjuster in the code. -/
theorem getAdjusted_unguarded (s : SimpleHX711) (smoothed : Bool)
    (h : s._adjuster ≠ 0) :
    getAdjusted s smoothed
      = wrap32 (Int.tdiv (getRawMinusTare s smoothed) s._adjuster) := by
  simp [getAdjusted, getRawMinusTare]

/-- Witness for C8 at a concrete state (the fresh state, adjuster 256). -/
theorem getAdjusted_unguarded_witness :
    (make 1 2 3 Gain.gain128 0)._adjuster ≠ 0 ∧
    getAdjusted (make 1 2 3 Gain.gain128 0) false
      = wrap32 (Int.tdiv (getRawMinusTare (make 1 2 3 Gain.gain128 0) false)
          (make 1 2 3 Gain.gain128 0)._adjuster) :=
  ⟨by decide, getAdjusted_unguarded (make 1 2 3 Gain.gain128 0) false (by decide)⟩

/-- Claim C3: the steady-state smoothing update computes
`smoothed = smoothed + ((raw - smoothed) / 256) * alpha` in `int32_t`
arithmetic with the truncating integer division performed before the
multiplication, where raw is the value acquired on this poll; in
particular for raw = 2560, smoothed = 0, alpha = 200 the updated
smoothed value is exactly 2000. -/
theorem smoothing_update_formula (s : SimpleHX711) (e : PollEnv)
    (hc : e.clkHigh = false) (hd : e.dataHigh = false)
    (ht : s._status ≠ Status.timedOut)
    (hsteady : s._readsUntilValid ≤ s._readCount) :
    (read s e).2._smoothedRaw
      = wrap32 (s._smoothedRaw
          + Int.tdiv (wrap32 ((read s e).2._raw - s._smoothedRaw)) 256
              * (s._alpha : Int)) ∧
    wrap32 ((0 : Int) + Int.tdiv (wrap32 ((2560 : Int) - 0)) 256 * (200 : Int))
      = 2000 := by
  refine ⟨?_, by decide⟩
  simp [SimpleHX711.read, hc, hd, ht, Nat.not_lt.mpr hsteady, smoothUpdate]

/-- Witness for C3: a freshly constructed instance with
readsUntilValid = 0 is already in the steady state. -/
theorem smoothing_update_formula_witness :
    (read (make 1 2 0 Gain.gain128 0) eReady).2._smoothedRaw
      = wrap32 ((make 1 2 0 Gain.gain128 0)._smoothedRaw
          + Int.tdiv (wrap32 ((read (make 1 2 0 Gain.gain128 0) eReady).2._raw
              - (make 1 2 0 Gain.gain128 0)._smoothedRaw)) 256
              * ((make 1 2 0 Gain.gain128 0)._alpha : Int)) ∧
    wrap32 ((0 : Int) + Int.tdiv (wrap32 ((2560 : Int) - 0)) 256 * (200 : Int))
      = 2000 :=
  smoothing_update_formula (make 1 2 0 Gain.gain128 0) eReady rfl rfl
    (by decide) (by decide)

/-- Claim C10: if readsUntilValid is 0, any poll that performs a full
protocol transfer (both lines deasserted) returns true with
Status = Valid, and SmoothedReading is updated by the steady-state
smoothing rule from its previous value rather than being seeded from
the raw value: the seeding branch is never taken. -/
theorem readsUntilValid_zero_no_seeding (s : SimpleHX711) (e : PollEnv)
    (h0 : s._readsUntilValid = 0) (hc : e.clkHigh = false)
    (hd : e.dataHigh = false) :
    (read s e).1 = true ∧
    (read s e).2._status = Status.valid ∧
    (read s e).2._smoothedRaw
      = smoothUpdate s._smoothedRaw (read s e).2._raw s._alpha := by
  by_cases ht : s._status = Status.timedOut <;>
    simp [SimpleHX711.read, hc, hd, ht, h0]

/-- Witness for C10 at a freshly constructed instance with
readsUntilValid = 0. -/
theorem readsUntilValid_zero_no_seeding_witness :
    (read (make 1 2 0 Gain.gain128 0) eReady).1 = true ∧
    (read (make 1 2 0 Gain.gain128 0) eReady).2._status = Status.valid ∧
    (read (make 1 2 0 Gain.gain128 0) eReady).2._smoothedRaw
      = smoothUpdate (make 1 2 0 Gain.gain128 0)._smoothedRaw
          (read (make 1 2 0 Gain.gain128 0) eReady).2._raw
          (make 1 2 0 Gain.gain128 0)._alpha :=
  readsUntilValid_zero_no_seeding (make 1 2 0 Gain.gain128 0) eReady rfl rfl rfl

/-- Counterexample to Claim C2 as stated: after a poll that set
Status = TimedOut, a next poll that observes the clock line asserted
does NOT reset SettlingCounter to 0 and Status to Init — it reports
PoweredDown and leaves the counter at its previous value 1.  The
"regardless of the levels read on the clock and data lines" part of the
claim fails. -/
theorem timedOut_next_poll_counterexample :
    (read (read (make 1 2 3 Gain.gain128 0) eReady).2 eBusyLate).1 = true ∧
    (read (read (make 1 2 3 Gain.gain128 0) eReady).2 eBusyLate).2._status
      = Status.timedOut ∧
    (read (read (read (make 1 2 3 Gain.gain128 0) eReady).2 eBusyLate).2
        eClkHigh).2._status = Status.poweredDown ∧
    ¬ ((read (read (read (make 1 2 3 Gain.gain128 0) eReady).2 eBusyLate).2
        eClkHigh).2._status = Status.init) ∧
    ¬ ((read (read (read (make 1 2 3 Gain.gain128 0) eReady).2 eBusyLate).2
        eClkHigh).2._readCount = 0) := by
  decide

/-- Claim C2 (amended): after a poll that set Status = TimedOut, the
next poll that observes the clock line deasserted and the data line
deasserted behaves exactly as if SettlingCounter had been reset to 0
and Status to Init before the call (the recovery reset is applied, then
the transfer proceeds from the reset state). -/
theorem timedOut_recovery_on_ready_poll (s : SimpleHX711) (e : PollEnv)
    (h : s._status = Status.timedOut) (hc : e.clkHigh = false)
    (hd : e.dataHigh = false) :
    read s e = read { s with _status := Status.init, _readCount := 0 } e := by
  simp [SimpleHX711.read, h, hc, hd]

/-- Witness for C2 (amended) at a concrete timed-out state. -/
theorem timedOut_recovery_on_ready_poll_witness :
    read { make 1 2 3 Gain.gain128 0 with _status := Status.timedOut } eReady
      = read { { make 1 2 3 Gain.gain128 0 with _status := Status.timedOut } with
          _status := Status.init, _readCount := 0 } eReady :=
  timedOut_recovery_on_ready_poll
    { make 1 2 3 Gain.gain128 0 with _status := Status.timedOut } eReady rfl rfl rfl

/-- Helper: one ready poll advances the settling description.  If the
state reads as "k successful transfers since the last reset" (counter
clamped at the threshold, status Init until the threshold is hit), the
post-state reads as "k + 1 successful transfers". -/
theorem read_settling_step (s : SimpleHX711) (e : PollEnv) (k : Nat)
    (h255 : s._readsUntilValid ≤ 255)
    (hc : e.clkHigh = false) (hd : e.dataHigh = false)
    (hrc : s._readCount = min k s._readsUntilValid)
    (hst : s._status
      = if k < max s._readsUntilValid 1 then Status.init else Status.valid) :
    (read s e).2._readCount = min (k + 1) s._readsUntilValid ∧
    (read s e).2._status
      = (if k + 1 < max s._readsUntilValid 1 then Status.init else Status.valid) ∧
    (read s e).2._readsUntilValid = s._readsUntilValid := by
  have ht : s._status ≠ Status.timedOut := by
    rw [hst]; split <;> simp
  by_cases hk : k < s._readsUntilValid
  · have hrc' : s._readCount = k := by rw [hrc]; omega
    have hmod : (k + 1) % 256 = k + 1 := Nat.mod_eq_of_lt (by omega)
    by_cases hk1 : k + 1 < s._readsUntilValid
    · simp [SimpleHX711.read, hc, hd, ht, hrc', hk, hmod, hk1, hst]
      omega
    · simp [SimpleHX711.read, hc, hd, ht, hrc', hk, hmod, hk1]
      omega
  · have hrc' : s._readCount = s._readsUntilValid := by rw [hrc]; omega
    simp [SimpleHX711.read, hc, hd, ht, hrc', hk]
    refine ⟨by omega, ?_⟩
    rw [if_neg (by omega)]

/-- Helper: iterating ready polls preserves the settling description,
advancing the transfer count by the number of polls. -/
theorem readMany_settling (es : List PollEnv) (s : SimpleHX711) (k : Nat)
    (h255 : s._readsUntilValid ≤ 255)
    (hready : ∀ e ∈ es, e.clkHigh = false ∧ e.dataHigh = false)
    (hrc : s._readCount = min k s._readsUntilValid)
    (hst : s._status
      = if k < max s._readsUntilValid 1 then Status.init else Status.valid) :
    (readMany s es)._readCount = min (k + es.length) s._readsUntilValid ∧
    (readMany s es)._status
      = (if k + es.length < max s._readsUntilValid 1 then Status.init
          else Status.valid) ∧
    (readMany s es)._readsUntilValid = s._readsUntilValid := by
  induction es generalizing s k with
  | nil => exact ⟨by simpa using hrc, by simpa using hst, rfl⟩
  | cons e es ih =>
    obtain ⟨hc, hd⟩ := hready e (List.mem_cons_self e es)
    obtain ⟨g1, g2, g3⟩ := read_settling_step s e k h255 hc hd hrc hst
    have hready' : ∀ e' ∈ es, e'.clkHigh = false ∧ e'.dataHigh = false :=
      fun e' he' => hready e' (List.mem_cons_of_mem e he')
    have h4 := ih (read s e).2 (k + 1) (by rw [g3]; exact h255) hready'
      (by rw [g3]; exact g1) (by rw [g3]; exact g2)
    rw [g3] at h4
    have hlen : k + (es.length + 1) = k + 1 + es.length := by omega
    simpa [SimpleHX711.readMany, List.foldl_cons, List.length_cons, hlen] using h4

/-- Helper: a single poll preserves the bound
SettlingCounter ≤ readsUntilValid (and the byte bound on the
threshold), whatever the line levels and samples. -/
theorem read_counter_invariant (s : SimpleHX711) (e : PollEnv)
    (h1 : s._readCount ≤ s._readsUntilValid) (h2 : s._readsUntilValid ≤ 255) :
    (read s e).2._readCount ≤ (read s e).2._readsUntilValid ∧
    (read s e).2._readsUntilValid ≤ 255 := by
  by_cases hclk : e.clkHigh
  · simpa [SimpleHX711.read, hclk] using ⟨h1, h2⟩
  · by_cases hdata : e.dataHigh
    · by_cases htime :
        500 ≤ (u32 e.now + 4294967296 - u32 s._conversionStartTime) % 4294967296
      · simpa [SimpleHX711.read, hclk, hdata, htime] using ⟨h1, h2⟩
      · simpa [SimpleHX711.read, hclk, hdata, htime] using ⟨h1, h2⟩
    · by_cases hto : s._status = Status.timedOut
      · simp [SimpleHX711.read, hclk, hdata, hto]
        split_ifs <;> refine ⟨by simp <;> omega, by simp <;> omega⟩
      · simp [SimpleHX711.read, hclk, hdata, hto]
        split_ifs <;> refine ⟨by simp <;> omega, by simp <;> omega⟩

/-- Helper: every public operation other than `setReadsUntilValid`
preserves the bound SettlingCounter ≤ readsUntilValid. -/
theorem applyOp_counter_invariant (s : SimpleHX711) (op : Op)
    (hop : op.changesThreshold = false)
    (h1 : s._readCount ≤ s._readsUntilValid) (h2 : s._readsUntilValid ≤ 255) :
    (applyOp s op)._readCount ≤ (applyOp s op)._readsUntilValid ∧
    (applyOp s op)._readsUntilValid ≤ 255 := by
  cases op with
  | read e => exact read_counter_invariant s e h1 h2
  | setGain g => simpa [applyOp, SimpleHX711.setGain] using h2
  | setAlpha a => simpa [applyOp, SimpleHX711.setAlpha] using ⟨h1, h2⟩
  | tare sm => simpa [applyOp, SimpleHX711.tare] using ⟨h1, h2⟩
  | setTare t => simpa [applyOp, SimpleHX711.setTare] using ⟨h1, h2⟩
  | adjustTo v sm => simpa [applyOp, SimpleHX711.adjustTo] using ⟨h1, h2⟩
  | setAdjuster a => simpa [applyOp, SimpleHX711.setAdjuster] using ⟨h1, h2⟩
  | powerDown => simpa [applyOp, SimpleHX711.powerDown] using ⟨h1, h2⟩
  | powerUp now => simpa [applyOp, SimpleHX711.powerUp] using h2
  | setReadsUntilValid n => simp [Op.changesThreshold] at hop

/-- Helper: the counter bound is preserved by any sequence of public
operations that avoids `setReadsUntilValid`. -/
theorem runOps_counter_invariant (ops : List Op) (s : SimpleHX711)
    (hop : ∀ op ∈ ops, op.changesThreshold = false)
    (h1 : s._readCount ≤ s._readsUntilValid) (h2 : s._readsUntilValid ≤ 255) :
    (runOps s ops)._readCount ≤ (runOps s ops)._readsUntilValid ∧
    (runOps s ops)._readsUntilValid ≤ 255 := by
  induction ops generalizing s with
  | nil => exact ⟨h1, h2⟩
  | cons op ops ih =>
    obtain ⟨g1, g2⟩ :=
      applyOp_counter_invariant s op (hop op (List.mem_cons_self op ops)) h1 h2
    simpa [runOps] using
      ih (applyOp s op) (fun o ho => hop o (List.mem_cons_of_mem op ho)) g1 g2

/-- Counterexample to Claim C5 as stated: `setReadsUntilValid` does not
clamp or reset the settling counter, so lowering the threshold below
the current counter yields a reachable state where SettlingCounter
exceeds readsUntilValid.  Concretely: construct with
readsUntilValid = 1, perform one successful poll (counter becomes 1),
then call setReadsUntilValid(0). -/
theorem settling_counter_bound_counterexample :
    ¬ ((runOps (make 1 2 1 Gain.gain128 0)
          [Op.read eReady, Op.setReadsUntilValid 0])._readCount
        ≤ (runOps (make 1 2 1 Gain.gain128 0)
            [Op.read eReady, Op.setReadsUntilValid 0])._readsUntilValid) := by
  decide

/-- Claim C5 (amended): in every state reachable from construction by a
sequence of public operations that does not include
`setReadsUntilValid`, SettlingCounter never exceeds readsUntilValid.
(`setReadsUntilValid` can lower the threshold below the current counter
without clamping it, violating the bound until the next reset.) -/
theorem settling_counter_bound (pinClk pinData readsUntilValid : Nat)
    (g : Gain) (millis0 : Nat) (ops : List Op)
    (hop : ∀ op ∈ ops, op.changesThreshold = false) :
    (runOps (make pinClk pinData readsUntilValid g millis0) ops)._readCount
      ≤ (runOps (make pinClk pinData readsUntilValid g millis0)
          ops)._readsUntilValid :=
  (runOps_counter_invariant ops (make pinClk pinData readsUntilValid g millis0)
    hop (by simp [make]) (by simp [make]; omega)).1

/-- Witness for C5 (amended) with the empty operation sequence. -/
theorem settling_counter_bound_witness :
    (∀ op ∈ ([] : List Op), op.changesThreshold = false) ∧
    (runOps (make 1 2 3 Gain.gain128 0) [])._readCount
      ≤ (runOps (make 1 2 3 Gain.gain128 0) [])._readsUntilValid :=
  ⟨by simp, settling_counter_bound 1 2 3 Gain.gain128 0 [] (by simp)⟩

/-- Claim C6: for every state, `setGain(mode)` updates the stored gain
to mode, sets Status to Init, resets SettlingCounter to 0 and changes
nothing else; consequently, over any following sequence of successful
full-transfer polls, Status is Init while fewer than readsUntilValid
polls have happened and becomes Valid exactly once that many polls
(at least one) have happened. -/
theorem setGain_resets_settling (s : SimpleHX711) (g : Gain) (es : List PollEnv)
    (h255 : s._readsUntilValid ≤ 255)
    (hready : ∀ e ∈ es, e.clkHigh = false ∧ e.dataHigh = false) :
    setGain s g
      = { s with _gain := g, _status := Status.init, _readCount := 0 } ∧
    (readMany (setGain s g) es)._status
      = (if es.length < max s._readsUntilValid 1 then Status.init
          else Status.valid) := by
  refine ⟨rfl, ?_⟩
  have h0 : (0 : Nat) < max s._readsUntilValid 1 := by omega
  have h := readMany_settling es (setGain s g) 0
    (by simpa [SimpleHX711.setGain] using h255) hready
    (by simp [SimpleHX711.setGain])
    (by simp [SimpleHX711.setGain, h0])
  have h21 := h.2.1
  rw [Nat.zero_add] at h21
  simpa [SimpleHX711.setGain] using h21

/-- Witness for C6: readsUntilValid = 2, one ready poll after the gain
change leaves Status at Init. -/
theorem setGain_resets_settling_witness :
    (setGain (make 1 2 2 Gain.gain128 0) Gain.gain32
      = { make 1 2 2 Gain.gain128 0 with
          _gain := Gain.gain32
          _status := Status.init
          _readCount := 0 }) ∧
    (readMany (setGain (make 1 2 2 Gain.gain128 0) Gain.gain32)
        [eReady])._status
      = (if [eReady].length < max (make 1 2 2 Gain.gain128 0)._readsUntilValid 1
          then Status.init else Status.valid) :=
  setGain_resets_settling (make 1 2 2 Gain.gain128 0) Gain.gain32 [eReady]
    (by decide)
    (by intro e he; rw [List.mem_singleton] at he; subst he; exact ⟨rfl, rfl⟩)

/-- Claim C1: starting from a freshly constructed instance with
readsUntilValid = 3, if every poll observes the clock line deasserted
and the data line deasserted (chip ready), then polls 1 and 2 return
false with Status = Init, and poll 3 returns true with Status = Valid
and with SmoothedReading exactly equal to the raw value acquired on
that third poll (the seeding read applies no smoothing). -/
theorem three_polls_until_valid (pinClk pinData : Nat) (g : Gain)
    (millis0 : Nat) (e1 e2 e3 : PollEnv)
    (h1c : e1.clkHigh = false) (h1d : e1.dataHigh = false)
    (h2c : e2.clkHigh = false) (h2d : e2.dataHigh = false)
    (h3c : e3.clkHigh = false) (h3d : e3.dataHigh = false) :
    (read (make pinClk pinData 3 g millis0) e1).1 = false ∧
    (read (make pinClk pinData 3 g millis0) e1).2._status = Status.init ∧
    (read (read (make pinClk pinData 3 g millis0) e1).2 e2).1 = false ∧
    (read (read (make pinClk pinData 3 g millis0) e1).2 e2).2._status
      = Status.init ∧
    (read (read (read (make pinClk pinData 3 g millis0) e1).2 e2).2 e3).1
      = true ∧
    (read (read (read (make pinClk pinData 3 g millis0) e1).2 e2).2
        e3).2._status = Status.valid ∧
    (read (read (read (make pinClk pinData 3 g millis0) e1).2 e2).2
        e3).2._smoothedRaw
      = (read (read (read (make pinClk pinData 3 g millis0) e1).2 e2).2
          e3).2._raw := by
  simp [SimpleHX711.read, make, h1c, h1d, h2c, h2d, h3c, h3d]

/-- Witness for C1 with all-ready poll environments. -/
theorem three_polls_until_valid_witness :
    (read (make 1 2 3 Gain.gain128 0) eReady).1 = false ∧
    (read (make 1 2 3 Gain.gain128 0) eReady).2._status = Status.init ∧
    (read (read (make 1 2 3 Gain.gain128 0) eReady).2 eReady).1 = false ∧
    (read (read (make 1 2 3 Gain.gain128 0) eReady).2 eReady).2._status
      = Status.init ∧
    (read (read (read (make 1 2 3 Gain.gain128 0) eReady).2 eReady).2
        eReady).1 = true ∧
    (read (read (read (make 1 2 3 Gain.gain128 0) eReady).2 eReady).2
        eReady).2._status = Status.valid ∧
    (read (read (read (make 1 2 3 Gain.gain128 0) eReady).2 eReady).2
        eReady).2._smoothedRaw
      = (read (read (read (make 1 2 3 Gain.gain128 0) eReady).2 eReady).2
          eReady).2._raw :=
  three_polls_until_valid 1 2 Gain.gain128 0 eReady eReady eReady
    rfl rfl rfl rfl rfl rfl
